import Mathlib

/-!
Verification development for the zynthian-ui real-time audio engine
(zynlibs/zynaudioplayer/zynaudioplayer.c and zynlibs/zynmixer/mixer.c).

Samples (C `float`) are modelled as exact rationals; machine indices
(C `size_t`, `uint8_t`, `jack_nframes_t`) are modelled as `Nat`.  All values
stay far below 2^64 in the states considered, so no wrap-around arithmetic
is needed except where explicitly noted (`g_nLastFrame = -1`).
-/

namespace Player

/-- Embeds `RING_BUFFER_SIZE` from zynaudioplayer.c (`AUDIO_BUFFER_SIZE * 2`). -/
def RING_BUFFER_SIZE : Nat := 100000

/-- Embeds `struct RING_BUFFER`: read offset `front`, write offset `back`, element
count `size`, and the two sample arrays (modelled as total functions; the C
arrays are larger than `size` and only indices below `size` are ever read by
a run that stays within bounds). -/
structure RING_BUFFER where
  front : Nat
  back : Nat
  size : Nat
  dataA : Nat → ℚ
  dataB : Nat → ℚ

/-- Embeds `ringBufferInit` with the buffer capacity as a parameter: the C code sets
`buffer->size = RING_BUFFER_SIZE`; `ringBufferInit` below specialises. -/
def ringBufferInitSized (sz : Nat) : RING_BUFFER :=
  { front := 0, back := 0, size := sz, dataA := fun _ => 0, dataB := fun _ => 0 }

/-- Embeds `ringBufferInit` exactly as in the source (capacity `RING_BUFFER_SIZE`). -/
def ringBufferInit : RING_BUFFER := ringBufferInitSized RING_BUFFER_SIZE

/-- One write run of `ringBufferPush`:
`for(; back < stop; ++back) { if(count >= n) break; dataA[back] = inA[count]; dataB[back] = inB[count]; ++count; }`.
The fuel argument is `stop - back` at entry, so fuel exhaustion is exactly the
loop condition `back < stop` failing. Returns (dataA, dataB, back, count). -/
def pushLoop (inA inB : Nat → ℚ) (n : Nat) :
    Nat → (Nat → ℚ) → (Nat → ℚ) → Nat → Nat → ((Nat → ℚ) × (Nat → ℚ) × Nat × Nat)
  | 0, dA, dB, back, count => (dA, dB, back, count)
  | fuel + 1, dA, dB, back, count =>
      if n ≤ count then (dA, dB, back, count)
      else
        pushLoop inA inB n fuel
          (Function.update dA back (inA count)) (Function.update dB back (inB count))
          (back + 1) (count + 1)

/-- Embeds `ringBufferPush(buffer, dataA, dataB, size)`: returns the updated buffer
and the count of elements actually written.  Mirrors the three loops of the
source: when `back < front` fill up to `front`; otherwise fill to the end of
the storage, then (if data remains) wrap `back` to 0 and fill up to `front`. -/
def ringBufferPush (buf : RING_BUFFER) (inA inB : Nat → ℚ) (n : Nat) :
    RING_BUFFER × Nat :=
  if buf.back < buf.front then
    let r := pushLoop inA inB n (buf.front - buf.back) buf.dataA buf.dataB buf.back 0
    ({ buf with dataA := r.1, dataB := r.2.1, back := r.2.2.1 }, r.2.2.2)
  else
    let r := pushLoop inA inB n (buf.size - buf.back) buf.dataA buf.dataB buf.back 0
    if r.2.2.2 < n then
      let w := pushLoop inA inB n buf.front r.1 r.2.1 0 r.2.2.2
      ({ buf with dataA := w.1, dataB := w.2.1, back := w.2.2.1 }, w.2.2.2)
    else
      ({ buf with dataA := r.1, dataB := r.2.1, back := r.2.2.1 }, r.2.2.2)

/-- One read run of `ringBufferPop` that reads from the moving `front` index:
`for(; front < stop; ++front) { if(count >= n) break; out[count] = data[front]; ++count; }`.
Returns the elements emitted plus the final `front` and `count`. -/
def popLoop (dA dB : Nat → ℚ) (n : Nat) :
    Nat → Nat → Nat → (List ℚ × List ℚ × Nat × Nat)
  | 0, front, count => ([], [], front, count)
  | fuel + 1, front, count =>
      if n ≤ count then ([], [], front, count)
      else
        let r := popLoop dA dB n fuel (front + 1) (count + 1)
        (dA front :: r.1, dB front :: r.2.1, r.2.2.1, r.2.2.2)

/-- The wrapped second leg of `ringBufferPop`:
`for(front = 0; front <= back; ++front) { if(count >= n) break; out[count] = dataA[back]; ... }`.
Note the source reads index `back` (the producer's next write slot), not the
moving `front` index. -/
def popWrapLoop (dA dB : Nat → ℚ) (bk n : Nat) :
    Nat → Nat → Nat → (List ℚ × List ℚ × Nat × Nat)
  | 0, front, count => ([], [], front, count)
  | fuel + 1, front, count =>
      if n ≤ count then ([], [], front, count)
      else
        let r := popWrapLoop dA dB bk n fuel (front + 1) (count + 1)
        (dA bk :: r.1, dB bk :: r.2.1, r.2.2.1, r.2.2.2)

/-- Embeds `ringBufferPop(buffer, dataA, dataB, size)`: returns the A and B samples
written to the output arrays (in order) and the updated buffer; the C return
value `count` is the length of the returned lists. -/
def ringBufferPop (buf : RING_BUFFER) (n : Nat) :
    List ℚ × List ℚ × RING_BUFFER :=
  if buf.back = buf.front then ([], [], buf)
  else if buf.front < buf.back then
    let r := popLoop buf.dataA buf.dataB n (buf.back - buf.front) buf.front 0
    (r.1, r.2.1, { buf with front := r.2.2.1 })
  else
    let r := popLoop buf.dataA buf.dataB n (buf.size - buf.front) buf.front 0
    if r.2.2.2 < n then
      let w := popWrapLoop buf.dataA buf.dataB buf.back n (buf.back + 1) 0 r.2.2.2
      (r.1 ++ w.1, r.2.1 ++ w.2.1, { buf with front := w.2.2.1 })
    else
      (r.1, r.2.1, { buf with front := r.2.2.1 })

/-- Embeds `ringBufferGetFree`. -/
def ringBufferGetFree (buf : RING_BUFFER) : Nat :=
  if buf.back < buf.front then buf.front - buf.back
  else buf.size - buf.back + buf.front

/-- Embeds `ringBufferGetUsed`. -/
def ringBufferGetUsed (buf : RING_BUFFER) : Nat :=
  if buf.front ≤ buf.back then buf.back - buf.front
  else buf.size - buf.front + buf.back

/-- Ring-buffer states produced by some sequence of `ringBufferPush` and
`ringBufferPop` calls starting from an initialised buffer. -/
inductive Reachable : RING_BUFFER → Prop
  | init (sz : Nat) : Reachable (ringBufferInitSized sz)
  | push (b : RING_BUFFER) (inA inB : Nat → ℚ) (n : Nat) (h : Reachable b) :
      Reachable (ringBufferPush b inA inB n).1
  | pop (b : RING_BUFFER) (n : Nat) (h : Reachable b) :
      Reachable (ringBufferPop b n).2.2

theorem pushLoop_back_le (inA inB : Nat → ℚ) (n : Nat) :
    ∀ fuel dA dB back count,
      (pushLoop inA inB n fuel dA dB back count).2.2.1 ≤ back + fuel := by
  intro fuel
  induction fuel with
  | zero => intro dA dB back count; simp [pushLoop]
  | succ fuel ih =>
      intro dA dB back count
      simp only [pushLoop]
      by_cases h : n ≤ count
      · simp [h]
      · simp only [h, if_false]
        calc (pushLoop inA inB n fuel _ _ (back + 1) (count + 1)).2.2.1
            ≤ back + 1 + fuel := ih _ _ _ _
          _ = back + (fuel + 1) := by omega

theorem popLoop_front_le (dA dB : Nat → ℚ) (n : Nat) :
    ∀ fuel front count,
      (popLoop dA dB n fuel front count).2.2.1 ≤ front + fuel := by
  intro fuel
  induction fuel with
  | zero => intro front count; simp [popLoop]
  | succ fuel ih =>
      intro front count
      simp only [popLoop]
      by_cases h : n ≤ count
      · simp [h]
      · simp only [h, if_false]
        calc (popLoop dA dB n fuel (front + 1) (count + 1)).2.2.1
            ≤ front + 1 + fuel := ih _ _
          _ = front + (fuel + 1) := by omega

theorem popWrapLoop_front_le (dA dB : Nat → ℚ) (bk n : Nat) :
    ∀ fuel front count,
      (popWrapLoop dA dB bk n fuel front count).2.2.1 ≤ front + fuel := by
  intro fuel
  induction fuel with
  | zero => intro front count; simp [popWrapLoop]
  | succ fuel ih =>
      intro front count
      simp only [popWrapLoop]
      by_cases h : n ≤ count
      · simp [h]
      · simp only [h, if_false]
        calc (popWrapLoop dA dB bk n fuel (front + 1) (count + 1)).2.2.1
            ≤ front + 1 + fuel := ih _ _
          _ = front + (fuel + 1) := by omega

/-- Index bounds invariant maintained by the ring-buffer operations. -/
def IndexInv (buf : RING_BUFFER) : Prop :=
  buf.front ≤ buf.size ∧ buf.back ≤ buf.size

theorem indexInv_push (buf : RING_BUFFER) (inA inB : Nat → ℚ) (n : Nat)
    (h : IndexInv buf) : IndexInv (ringBufferPush buf inA inB n).1 := by
  obtain ⟨hf, hb⟩ := h
  unfold ringBufferPush
  by_cases h1 : buf.back < buf.front
  · have := pushLoop_back_le inA inB n (buf.front - buf.back) buf.dataA buf.dataB buf.back 0
    simp only [h1, if_true]
    refine ⟨?_, ?_⟩ <;> dsimp only <;> omega
  · simp only [h1, if_false]
    have h2 := pushLoop_back_le inA inB n (buf.size - buf.back) buf.dataA buf.dataB buf.back 0
    by_cases h3 : (pushLoop inA inB n (buf.size - buf.back) buf.dataA buf.dataB buf.back 0).2.2.2 < n
    · simp only [h3, if_true]
      have h4 := pushLoop_back_le inA inB n buf.front
        (pushLoop inA inB n (buf.size - buf.back) buf.dataA buf.dataB buf.back 0).1
        (pushLoop inA inB n (buf.size - buf.back) buf.dataA buf.dataB buf.back 0).2.1 0
        (pushLoop inA inB n (buf.size - buf.back) buf.dataA buf.dataB buf.back 0).2.2.2
      refine ⟨?_, ?_⟩ <;> dsimp only <;> omega
    · simp only [h3, if_false]
      refine ⟨?_, ?_⟩ <;> dsimp only <;> omega

theorem indexInv_pop (buf : RING_BUFFER) (n : Nat)
    (h : IndexInv buf) : IndexInv (ringBufferPop buf n).2.2 := by
  obtain ⟨hf, hb⟩ := h
  unfold ringBufferPop
  by_cases h0 : buf.back = buf.front
  · simp only [h0, if_true]; exact ⟨hf, hb⟩
  · simp only [h0, if_false]
    by_cases h1 : buf.front < buf.back
    · have := popLoop_front_le buf.dataA buf.dataB n (buf.back - buf.front) buf.front 0
      simp only [h1, if_true]
      refine ⟨?_, ?_⟩ <;> dsimp only <;> omega
    · simp only [h1, if_false]
      have hlt : buf.back < buf.front := by omega
      by_cases h3 : (popLoop buf.dataA buf.dataB n (buf.size - buf.front) buf.front 0).2.2.2 < n
      · simp only [h3, if_true]
        have h4 := popWrapLoop_front_le buf.dataA buf.dataB buf.back n (buf.back + 1) 0
          (popLoop buf.dataA buf.dataB n (buf.size - buf.front) buf.front 0).2.2.2
        refine ⟨?_, ?_⟩ <;> dsimp only <;> omega
      · simp only [h3, if_false]
        have := popLoop_front_le buf.dataA buf.dataB n (buf.size - buf.front) buf.front 0
        refine ⟨?_, ?_⟩ <;> dsimp only <;> omega

theorem reachable_indexInv (buf : RING_BUFFER) (h : Reachable buf) : IndexInv buf := by
  induction h with
  | init sz => exact ⟨Nat.zero_le _, Nat.zero_le _⟩
  | push b inA inB n _ ih => exact indexInv_push b inA inB n ih
  | pop b n _ ih => exact indexInv_pop b n ih

end Player

namespace Player

/-- C6: for every ring-buffer state reachable by a sequence of
`ringBufferPush` and `ringBufferPop` calls from an initialised buffer,
`ringBufferGetFree` plus `ringBufferGetUsed` equals the buffer capacity. -/
theorem ringBuffer_free_add_used_eq_size (buf : RING_BUFFER) (h : Reachable buf) :
    ringBufferGetFree buf + ringBufferGetUsed buf = buf.size := by
  obtain ⟨hf, hb⟩ := reachable_indexInv buf h
  unfold ringBufferGetFree ringBufferGetUsed
  rcases Nat.lt_or_ge buf.back buf.front with h1 | h1
  · have h2 : ¬ buf.front ≤ buf.back := by omega
    simp only [h1, h2, if_true, if_false]
    omega
  · have h1' : ¬ buf.back < buf.front := by omega
    have h2 : buf.front ≤ buf.back := by omega
    simp only [h1', h2, if_true, if_false]
    omega

theorem ringBuffer_free_add_used_eq_size_witness :
    ringBufferGetFree (ringBufferInitSized 4) + ringBufferGetUsed (ringBufferInitSized 4)
      = (ringBufferInitSized 4).size :=
  ringBuffer_free_add_used_eq_size (ringBufferInitSized 4) (Reachable.init 4)

/-- Sample data fed to the ring buffer in the C1 trace: element `i` of the
pushed block. -/
def c1In (l : List ℚ) : Nat → ℚ := fun i => l.getD i 0

/-- C1 trace, step 1: initialise a capacity-4 buffer and push 10, 20, 30. -/
def c1State1 : RING_BUFFER :=
  (ringBufferPush (ringBufferInitSized 4) (c1In [10, 20, 30]) (c1In [10, 20, 30]) 3).1

/-- C1 trace, step 2: pop 2 elements (consuming 10, 20). -/
def c1State2 : RING_BUFFER := (ringBufferPop c1State1 2).2.2

/-- C1 trace, step 3: push 40, 50; the write wraps, leaving front = 2, back = 1
with unread elements 30 (index 2), 40 (index 3), 50 (index 0). -/
def c1State3 : RING_BUFFER :=
  (ringBufferPush c1State2 (c1In [40, 50]) (c1In [40, 50]) 2).1

/-- C1: `ringBufferPop` does NOT return the oldest unread frames in push order
on the wrapped second leg.  In the reachable state with front = 2, back = 1
and unread FIFO content [30, 40, 50], popping 3 returns [30, 40, 20]: the
third element is read from index `back` (the producer's next write slot,
holding the stale, already-consumed value 20) instead of from `front`, and the
unread element 50 is skipped.  This refutes the claim as a statement about the
code; the specification itself flags this branch as an incorrect artefact. -/
theorem ringBufferPop_wrap_reads_back_not_front :
    Reachable c1State3
    ∧ c1State3.front = 2 ∧ c1State3.back = 1
    ∧ (ringBufferPop c1State3 3).1 = [30, 40, 20]
    ∧ (ringBufferPop c1State3 3).1.getD 2 0 = c1State3.dataA c1State3.back
    ∧ (ringBufferPop c1State3 3).1 ≠ [30, 40, 50] := by
  refine ⟨Reachable.push _ _ _ _ (Reachable.pop _ _ (Reachable.push _ _ _ _
    (Reachable.init 4))), ?_, ?_, ?_, ?_, ?_⟩ <;> decide

end Player

namespace Player

/-- Embeds `enum playState`. -/
def STOPPED : Nat := 0

/-- Embeds `enum playState`. -/
def STARTING : Nat := 1

/-- Embeds `enum playState`. -/
def PLAYING : Nat := 2

/-- Embeds `enum playState`. -/
def STOPPING : Nat := 3

/-- Embeds `enum seekState`. -/
def IDLE : Nat := 0

/-- Embeds `enum seekState`. -/
def SEEKING : Nat := 1

/-- The value of `(size_t)-1`, used by the source as the "no last frame"
sentinel for `g_nLastFrame`. -/
def SIZE_T_MAX : Nat := 2 ^ 64 - 1

/-- Embeds `sizeof(jack_default_audio_sample_t)`: a 32-bit float occupies 4 bytes. -/
def SIZEOF_SAMPLE : Nat := 4

/-- The player's global state (the `g_*` variables of zynaudioplayer.c that
participate in the process callback and the control surface). -/
structure PlayerState where
  playState : Nat
  seek : Nat
  lastFrame : Nat
  level : ℚ
  loopFlag : Nat
  more : Nat
  playbackPosFrames : Nat
  samplerate : Nat
  fileFrames : Nat
  fileSamplerate : Nat
  ringBuffer : RING_BUFFER

/-- A JACK MIDI event: status byte, controller byte, value byte. -/
structure MidiEvent where
  b0 : Nat
  b1 : Nat
  b2 : Nat

/-- Embeds `getDuration()`. -/
def getDuration (st : PlayerState) : ℚ :=
  if st.fileSamplerate ≠ 0 then (st.fileFrames : ℚ) / st.fileSamplerate else 0

/-- Embeds `setPosition(time)`: `g_nPlaybackPosFrames = time * g_nSamplerate` (the C
float-to-unsigned conversion truncates; the argument is non-negative in every
use) and `g_nSeek = SEEKING`. -/
def setPosition (st : PlayerState) (time : ℚ) : PlayerState :=
  { st with playbackPosFrames := (⌊time * st.samplerate⌋).toNat, seek := SEEKING }

/-- Embeds `startPlayback()`; the JACK client is always present once `init` ran. -/
def startPlayback (st : PlayerState) : PlayerState :=
  { st with playState := STARTING }

/-- Embeds `stopPlayback()`. -/
def stopPlayback (st : PlayerState) : PlayerState :=
  if st.playState = STOPPED then st else { st with playState := STOPPING }

/-- Embeds `setLoop(bLoop)`. -/
def setLoop (st : PlayerState) (bLoop : Nat) : PlayerState :=
  { st with loopFlag := bLoop, more := 1 }

/-- Embeds `setVolume(level)`: rejects values outside [0, 2], otherwise stores. -/
def setVolume (st : PlayerState) (level : ℚ) : PlayerState :=
  if level < 0 ∨ 2 < level then st else { st with level := level }

/-- Embeds `getVolume()`. -/
def getVolume (st : PlayerState) : ℚ := st.level

/-- The MIDI dispatch of the player's `onJackProcess` for one event:
Control Change status on any channel, controllers 1 / 7 / 68 / 69. -/
def applyMidiEvent (st : PlayerState) (e : MidiEvent) : PlayerState :=
  if e.b0 &&& 0xF0 = 0xB0 then
    if e.b1 = 1 then setPosition st ((e.b2 : ℚ) * getDuration st / 127)
    else if e.b1 = 7 then { st with level := (e.b2 : ℚ) / 100 }
    else if e.b1 = 68 then (if 63 < e.b2 then startPlayback st else stopPlayback st)
    else if e.b1 = 69 then setLoop st (if 63 < e.b2 then 1 else 0)
    else st
  else st

/-- The player's `onJackProcess`, acting on the state, the two output port
buffers (whatever JACK leaves in them on entry) and the period's MIDI events.
The final `memset` adds `count * sizeof(jack_default_audio_sample_t)` to a
sample pointer, which the pointer arithmetic scales by the element size
again, so the zeroed region starts at element `SIZEOF_SAMPLE * count`. -/
def playerProcess (st : PlayerState) (nFrames : Nat) (outA0 outB0 : Nat → ℚ)
    (midi : List MidiEvent) : PlayerState × (Nat → ℚ) × (Nat → ℚ) :=
  let st1 := if st.playState = STARTING ∧ st.seek = IDLE then
    { st with playState := PLAYING } else st
  let audio :=
    if st1.playState = PLAYING ∨ st1.playState = STOPPING then
      let r := ringBufferPop st1.ringBuffer nFrames
      let st2 := { st1 with ringBuffer := r.2.2 }
      let st3 := if st2.playState = STOPPING ∨ st2.lastFrame = r.2.2.front then
          { st2 with playState := STOPPED, lastFrame := SIZE_T_MAX } else st2
      (st3, r.1, r.2.1)
    else (st1, [], [])
  let st4 := audio.1
  let popA := audio.2.1
  let popB := audio.2.2
  let count := popA.length
  let outA1 : Nat → ℚ := fun i => if i < count then popA.getD i 0 else outA0 i
  let outB1 : Nat → ℚ := fun i => if i < count then popB.getD i 0 else outB0 i
  let outA2 : Nat → ℚ := fun i => if i < count then outA1 i * st4.level else outA1 i
  let outB2 : Nat → ℚ := fun i => if i < count then outB1 i * st4.level else outB1 i
  let outA3 : Nat → ℚ := fun i =>
    if SIZEOF_SAMPLE * count ≤ i ∧ i < SIZEOF_SAMPLE * count + (nFrames - count)
    then 0 else outA2 i
  let outB3 : Nat → ℚ := fun i =>
    if SIZEOF_SAMPLE * count ≤ i ∧ i < SIZEOF_SAMPLE * count + (nFrames - count)
    then 0 else outB2 i
  (midi.foldl applyMidiEvent st4, outA3, outB3)

/-- Ring buffer holding the two frames 5 and 6 for the C2 scenario. -/
def c2RingBuffer : RING_BUFFER :=
  (ringBufferPush (ringBufferInitSized 8)
    (fun i => [5, 6].getD i 0) (fun i => [5, 6].getD i 0) 2).1

/-- Player state for the C2 scenario: playing, volume 1, no pending seek. -/
def c2State : PlayerState :=
  { playState := PLAYING, seek := IDLE, lastFrame := SIZE_T_MAX, level := 1,
    loopFlag := 0, more := 1, playbackPosFrames := 0, samplerate := 44100,
    fileFrames := 0, fileSamplerate := 0, ringBuffer := c2RingBuffer }

unseal Rat.mul Rat.add Rat.sub Rat.inv in
/-- C2: with nFrames = 8 and a pop of count = 2 frames, the callback writes
the scaled samples to elements 0 and 1, but the remainder of the port buffer
(elements 2..7, holding the stale value 7 here) is NOT zeroed: the `memset`
starts at element 4·count = 8 (off the end of the period) because the
byte offset `count * sizeof(sample)` is applied to an already element-scaled
pointer.  Element 8 (out of bounds for the period) is zeroed instead.  The
claim says elements count..nFrames-1 are set to zero. -/
theorem playerProcess_memset_misses_remainder :
    (playerProcess c2State 8 (fun _ => 7) (fun _ => 7) []).2.1 0 = 5
    ∧ (playerProcess c2State 8 (fun _ => 7) (fun _ => 7) []).2.1 1 = 6
    ∧ (playerProcess c2State 8 (fun _ => 7) (fun _ => 7) []).2.1 2 = 7
    ∧ (playerProcess c2State 8 (fun _ => 7) (fun _ => 7) []).2.1 7 = 7
    ∧ (playerProcess c2State 8 (fun _ => 7) (fun _ => 7) []).2.1 8 = 0
    ∧ ((7 : ℚ) = 0 → False) := by
  refine ⟨?_, ?_, ?_, ?_, ?_, ?_⟩ <;> decide

/-- C9: a Control Change 7 event sets the playback volume to value/100 with
no range restriction whatsoever (for every state and every data value), CC
value 127 yields volume 127/100 = 1.27, above the nominal 0..1 range, while
the `setVolume` API call does apply a range check (a call with argument 3 is
ignored). -/
theorem cc7_sets_volume_unchecked :
    (∀ (st : PlayerState) (v : Nat),
        (applyMidiEvent st { b0 := 0xB0, b1 := 7, b2 := v }).level = (v : ℚ) / 100)
    ∧ (1 : ℚ) < 127 / 100
    ∧ (∀ st : PlayerState, setVolume st 3 = st) := by
  refine ⟨fun st v => ?_, by norm_num, fun st => ?_⟩
  · have hb : (176 &&& 240 : Nat) = 176 := by decide
    simp [applyMidiEvent, hb]
  · simp only [setVolume]
    norm_num

end Player

namespace Mixer

/-- Embeds `MAX_CHANNELS` from mixer.c. -/
def MAX_CHANNELS : Nat := 32

/-- Embeds `isinf` on a sample: exact rational arithmetic produces no infinite
values, so the check is constantly false; it is kept so the embedded code has
the same shape as the source (`if (isinf(fSample)) fSample = 1.0;`). -/
def isinf (x : ℚ) : Bool := false

/-- The sanitisation applied after each sample computation in the source:
an infinite result is replaced by 1.0. -/
def sanitize (x : ℚ) : ℚ := if isinf x then 1 else x

/-- The M/S decode step of the mixer process callback:
`fSampleM = fSampleA + fSampleB; fSampleB = fSampleA - fSampleB; fSampleA = fSampleM;`. -/
def msStep (a b : ℚ) : ℚ × ℚ := (a + b, a - b)

/-- Embeds `struct channel_strip`: the fields read or written by the operations
verified here.  The JACK port handles and the meter state (`dpmA` … 
`holdBlast`, `enable_dpm`) are omitted: no verified claim depends on them and
the meter fields are left uninitialised by `addStrip` in the source.
The C `uint8_t` flags are modelled as `Nat` with C truthiness (non-zero). -/
structure ChannelStrip where
  level : ℚ
  reqlevel : ℚ
  balance : ℚ
  reqbalance : ℚ
  send : Nat → ℚ
  mute : Nat
  solo : Nat
  mono : Nat
  ms : Nat
  phase : Nat
  normalise : Nat
  inRouted : Nat
  outRouted : Nat

/-- Embeds `struct fx_send`: the per-period accumulator buffers (frame-indexed) and
the `level` field (written once with 1.0 by `addStrip` and never read by the
process callback). -/
structure FxSend where
  bufferA : Nat → ℚ
  bufferB : Nat → ℚ
  level : ℚ

/-- The mixer globals: the two strip arrays (`g_channelStrips`,
`g_mixbusStrips`), the send array (`g_fxSends`), the global solo flag
(`g_solo`) and a count of currently registered JACK ports. -/
structure MixerState where
  channelStrips : Nat → Option ChannelStrip
  mixbusStrips : Nat → Option ChannelStrip
  fxSends : Nat → Option FxSend
  solo : Nat
  nPorts : Nat

/-- The state after `init`'s global-array initialisation (all slots NULL). -/
def emptyMixer : MixerState :=
  { channelStrips := fun _ => none, mixbusStrips := fun _ => none,
    fxSends := fun _ => none, solo := 0, nPorts := 0 }

/-- The constant-zero buffer. -/
def zeroFn : Nat → ℚ := fun _ => 0

/-- The pre-fader part of one frame of per-strip processing (onJackProcess
lines 275-297): main-mixbus normalise pre-add, phase reverse, M/S decode,
mono fold; returns the (A, B) pair just before the level multiply. -/
def preFrame (mixbus : Bool) (chan : Nat) (strip : ChannelStrip)
    (inA inB normA normB : Nat → ℚ) (f : Nat) : ℚ × ℚ :=
  let a0 := if mixbus ∧ chan = 0 then inA f + normA f else inA f
  let b0 := if mixbus ∧ chan = 0 then inB f + normB f else inB f
  let b1 := if strip.phase ≠ 0 then -b0 else b0
  let p := if strip.ms ≠ 0 then msStep a0 b1 else (a0, b1)
  if strip.mono ≠ 0 then ((p.1 + p.2) / 2, (p.1 + p.2) / 2) else p

/-- The A leg of `preFrame`. -/
def preFaderA (mixbus : Bool) (chan : Nat) (strip : ChannelStrip)
    (inA inB normA normB : Nat → ℚ) (f : Nat) : ℚ :=
  (preFrame mixbus chan strip inA inB normA normB f).1

/-- The B leg of `preFrame`. -/
def preFaderB (mixbus : Bool) (chan : Nat) (strip : ChannelStrip)
    (inA inB normA normB : Nat → ℚ) (f : Nat) : ℚ :=
  (preFrame mixbus chan strip inA inB normA normB f).2

/-- The per-strip frame loop: each frame applies `preFrame`, multiplies by the
current (ramped) levels, sanitises, and advances the levels by the deltas.
Returns the list of processed (A, B) samples, one pair per frame. -/
def stripFrames (mixbus : Bool) (chan : Nat) (strip : ChannelStrip)
    (inA inB normA normB : Nat → ℚ) (dA dB : ℚ) :
    Nat → Nat → ℚ → ℚ → List (ℚ × ℚ)
  | 0, _, _, _ => []
  | count + 1, f, curA, curB =>
      let p := preFrame mixbus chan strip inA inB normA normB f
      (sanitize (p.1 * curA), sanitize (p.2 * curB)) ::
        stripFrames mixbus chan strip inA inB normA normB dA dB
          count (f + 1) (curA + dA) (curB + dB)

/-- One strip's slice of `onJackProcess` (lines 225-335, metering aside):
compute the current per-leg levels from the latched level and balance, the
target levels from mute/solo or from the requested level and balance (latching
the request), the per-sample deltas, and run the frame loop.  Returns the
processed samples and the updated strip. -/
def processStrip (mixbus : Bool) (chan : Nat) (gSolo : Nat) (strip : ChannelStrip)
    (inA inB normA normB : Nat → ℚ) (frames : Nat) : List (ℚ × ℚ) × ChannelStrip :=
  let curA := if 0 < strip.balance then strip.level * (1 - strip.balance) else strip.level
  let curB := if strip.balance < 0 then strip.level * (1 + strip.balance) else strip.level
  let tgt :=
    if strip.mute ≠ 0 ∨ (gSolo ≠ 0 ∧ strip.solo = 0 ∧ (mixbus = false ∨ chan ≠ 0)) then
      ((0 : ℚ), (0 : ℚ), { strip with level := 0 })
    else
      ((if 0 < strip.reqbalance then strip.reqlevel * (1 - strip.reqbalance)
        else strip.reqlevel),
       (if strip.reqbalance < 0 then strip.reqlevel * (1 + strip.reqbalance)
        else strip.reqlevel),
       { strip with level := strip.reqlevel, balance := strip.reqbalance })
  let fDeltaA := (tgt.1 - curA) / frames
  let fDeltaB := (tgt.2.1 - curB) / frames
  (stripFrames mixbus chan tgt.2.2 inA inB normA normB fDeltaA fDeltaB frames 0 curA curB,
   tgt.2.2)

/-- The send-buffer clearing at the top of the channel-variant callback:
`memset(g_fxSends[send]->buffer, 0, frames * sizeof(sample))` for every
configured send. -/
def zeroSends (fx : Nat → Option FxSend) (frames : Nat) : Nat → Option FxSend :=
  fun s =>
    if s < MAX_CHANNELS then
      (fx s).map fun snd =>
        { snd with
          bufferA := fun f => if f < frames then 0 else snd.bufferA f,
          bufferB := fun f => if f < frames then 0 else snd.bufferB f }
    else fx s

/-- One strip's contribution to the send accumulators (onJackProcess lines
314-326): for every send index 1..MAX_CHANNELS-1 with a configured send,
each frame adds the strip's processed (post-fader) sample multiplied by
`strip->send[send]`, sanitising the accumulated cell. -/
def accumStripSends (strip : ChannelStrip) (samples : List (ℚ × ℚ)) (frames : Nat)
    (fx : Nat → Option FxSend) : Nat → Option FxSend :=
  fun s =>
    if 1 ≤ s ∧ s < MAX_CHANNELS then
      (fx s).map fun snd =>
        { snd with
          bufferA := fun f =>
            if f < frames then
              sanitize (snd.bufferA f + (samples.getD f (0, 0)).1 * strip.send s)
            else snd.bufferA f,
          bufferB := fun f =>
            if f < frames then
              sanitize (snd.bufferB f + (samples.getD f (0, 0)).2 * strip.send s)
            else snd.bufferB f }
    else fx s

/-- The channel-variant strip iteration restricted to its effect on the send
accumulators: strips are visited in the given order (the callback iterates
`chan` from MAX_CHANNELS-1 down to 0) and only non-null strips with a routed
input are processed. -/
def channelSendsFold (st : MixerState) (inputs : Nat → (Nat → ℚ) × (Nat → ℚ))
    (frames : Nat) : (Nat → Option FxSend) → List Nat → (Nat → Option FxSend)
  | fx, [] => fx
  | fx, c :: rest =>
      let fx2 :=
        match st.channelStrips c with
        | none => fx
        | some strip =>
          if strip.inRouted ≠ 0 then
            accumStripSends strip
              (processStrip false c st.solo strip (inputs c).1 (inputs c).2
                zeroFn zeroFn frames).1
              frames fx
          else fx
      channelSendsFold st inputs frames fx2 rest

/-- The channel-variant `onJackProcess` projected onto the send accumulator
buffers: clear all send buffers, then process the strips in reverse index
order accumulating their send contributions. -/
def channelCallbackSends (st : MixerState) (inputs : Nat → (Nat → ℚ) × (Nat → ℚ))
    (frames : Nat) : Nat → Option FxSend :=
  channelSendsFold st inputs frames (zeroSends st.fxSends frames)
    (List.range MAX_CHANNELS).reverse

end Mixer

namespace Mixer

/-- The solo flag of a strip slot (an empty slot contributes 0, matching the
NULL check in the C scan). -/
def soloOf : Option ChannelStrip → Nat
  | none => 0
  | some s => s.solo

/-- The `g_solo` recomputation loop at the end of `setSolo`: 1 if any
existing strip on either tier has a non-zero solo flag, else 0. -/
def computeGlobalSolo (chs mbs : Nat → Option ChannelStrip) : Nat :=
  if (List.range MAX_CHANNELS).any (fun c => soloOf (chs c) != 0 || soloOf (mbs c) != 0)
  then 1 else 0

/-- The solo-clearing loop of `setSolo`'s main-mixbus branch: every existing
strip in the array gets solo = 0. -/
def clearSolos (strips : Nat → Option ChannelStrip) : Nat → Option ChannelStrip :=
  fun c =>
    if c < MAX_CHANNELS then (strips c).map (fun s => { s with solo := 0 })
    else strips c

/-- Embeds `setSolo(channel, mixbus, solo)`: bounds/NULL check; setting solo on the
main mixbus strip (index 0 of the mixbus tier) clears every solo on both
tiers regardless of the argument, otherwise the strip's solo flag is set;
finally `g_solo` is recomputed as the OR over all strips. -/
def setSolo (st : MixerState) (channel : Nat) (mixbus : Bool) (solo : Nat) :
    MixerState :=
  let strips := if mixbus then st.mixbusStrips else st.channelStrips
  if MAX_CHANNELS ≤ channel then st
  else
    match strips channel with
    | none => st
    | some strip =>
      let st2 :=
        if mixbus ∧ channel = 0 then
          { st with channelStrips := clearSolos st.channelStrips,
                    mixbusStrips := clearSolos st.mixbusStrips }
        else if mixbus then
          { st with mixbusStrips :=
              Function.update st.mixbusStrips channel (some { strip with solo := solo }) }
        else
          { st with channelStrips :=
              Function.update st.channelStrips channel (some { strip with solo := solo }) }
      { st2 with solo := computeGlobalSolo st2.channelStrips st2.mixbusStrips }

/-- Embeds `getSolo(channel, mixbus)`. -/
def getSolo (st : MixerState) (channel : Nat) (mixbus : Bool) : Nat :=
  let strips := if mixbus then st.mixbusStrips else st.channelStrips
  if MAX_CHANNELS ≤ channel then 0 else soloOf (strips channel)

/-- Replace one tier's strip array. -/
def setTier (st : MixerState) (mixbus : Bool) (strips : Nat → Option ChannelStrip) :
    MixerState :=
  if mixbus then { st with mixbusStrips := strips } else { st with channelStrips := strips }

/-- The slot-search loop at the top of `addStrip`: the first `chan` with
`strips[chan] == NULL`, scanning `fuel` slots upward from `chan`. -/
def findFreeFrom (strips : Nat → Option ChannelStrip) : Nat → Nat → Option Nat
  | _, 0 => none
  | chan, fuel + 1 =>
      if (strips chan).isNone then some chan else findFreeFrom strips (chan + 1) fuel

/-- The strip field initialisation of `addStrip` (lines 897-913): level 0,
requested level 0.8, balance 0, all flags clear, all sends 0 (the meter
fields are omitted, see `ChannelStrip`). -/
def defaultStrip : ChannelStrip :=
  { level := 0, reqlevel := 4 / 5, balance := 0, reqbalance := 0,
    send := fun _ => 0, mute := 0, solo := 0, mono := 0, ms := 0, phase := 0,
    normalise := 0, inRouted := 0, outRouted := 0 }

/-- Embeds `addStrip(mixbus)` with the outcome of each `jack_port_register` call
supplied by `oracle` (call k in this invocation succeeds iff `oracle k`).
The four registrations are input A/B and output A/B.  On the FIRST failure
the source frees the allocation but does not reset `strips[chan]`, so the
slot keeps the dangling pointer (modelled as the slot still holding the
freshly initialised strip); on the three later failures the earlier ports are
unregistered and the slot is reset to NULL.  On success of a non-zero mixbus
strip, an fx send with level 1.0 and two more ports is created (those two
registrations are unchecked in the source). -/
def addStrip (st : MixerState) (mixbus : Bool) (oracle : Nat → Bool) :
    MixerState × Int :=
  let strips := if mixbus then st.mixbusStrips else st.channelStrips
  match findFreeFrom strips 0 MAX_CHANNELS with
  | none => (st, -1)
  | some chan =>
    if ¬ oracle 0 then
      (setTier st mixbus (Function.update strips chan (some defaultStrip)), -1)
    else if ¬ oracle 1 then (st, -1)
    else if ¬ oracle 2 then (st, -1)
    else if ¬ oracle 3 then (st, -1)
    else
      let st2 := setTier st mixbus (Function.update strips chan (some defaultStrip))
      let st3 := { st2 with nPorts := st2.nPorts + 4 }
      let st4 :=
        if chan ≠ 0 ∧ mixbus then
          { st3 with
            fxSends := Function.update st3.fxSends chan
              (some { bufferA := zeroFn, bufferB := zeroFn, level := 1 }),
            nPorts := st3.nPorts + 2 }
        else st3
      (st4, (chan : Int))

/-- Embeds `removeStrip(chan, mixbus)`: refuses the main mixbus strip, out-of-range
indices and empty slots; otherwise unregisters the fx send ports for this
index if present (note: regardless of tier, as in the source), unregisters
the four strip ports, frees and clears the slot.  `g_solo` is NOT
recomputed. -/
def removeStrip (st : MixerState) (chan : Nat) (mixbus : Bool) : MixerState × Int :=
  let strips := if mixbus then st.mixbusStrips else st.channelStrips
  if (mixbus ∧ chan = 0) ∨ MAX_CHANNELS ≤ chan ∨ (strips chan).isNone then (st, -1)
  else
    let st1 :=
      if (st.fxSends chan).isSome then
        { st with fxSends := Function.update st.fxSends chan none,
                  nPorts := st.nPorts - 2 }
      else st
    let st2 := setTier st1 mixbus (Function.update strips chan none)
    ({ st2 with nPorts := st2.nPorts - 4 }, (chan : Int))

/-- A port-registration oracle under which every registration succeeds. -/
def okOracle : Nat → Bool := fun _ => true

/-- C3 trace, step 1: the main mixbus strip created by `init` (`addStrip(1)`). -/
def c3St1 : MixerState := (addStrip emptyMixer true okOracle).1

/-- C3 trace, step 2: one input channel strip. -/
def c3St2 : MixerState := (addStrip c3St1 false okOracle).1

/-- C3 trace, step 3: solo the channel strip; `g_solo` becomes 1. -/
def c3St3 : MixerState := setSolo c3St2 0 false 1

/-- C3 trace, step 4: remove the (only soloed) channel strip. -/
def c3St4 : MixerState := (removeStrip c3St3 0 false).1

/-- C3: `removeStrip` does not re-establish `g_solo = OR of strip solos`.
After soloing the only channel strip (g_solo = 1, matching the OR) and then
removing that strip, every remaining strip has solo 0, yet `g_solo` is still
1.  The claim holds for `setSolo` (and trivially for `addStrip`/`reset`) but
fails for `removeStrip`. -/
theorem removeStrip_leaves_stale_global_solo :
    c3St3.solo = 1
    ∧ computeGlobalSolo c3St3.channelStrips c3St3.mixbusStrips = 1
    ∧ c3St4.solo = 1
    ∧ computeGlobalSolo c3St4.channelStrips c3St4.mixbusStrips = 0 := by
  refine ⟨?_, ?_, ?_, ?_⟩ <;> decide

/-- A registration oracle whose first `jack_port_register` call fails. -/
def failFirstOracle : Nat → Bool := fun k => k != 0

/-- A registration oracle whose second `jack_port_register` call fails. -/
def failSecondOracle : Nat → Bool := fun k => k != 1

/-- C5: when the FIRST of the four port registrations inside `addStrip`
fails, the call returns -1 and the allocation is freed, but the strip array
slot is NOT left empty: it still holds the (now dangling) strip pointer.
When a later registration fails (second shown here), the slot IS reset to
NULL and no ports remain registered, as the claim describes. -/
theorem addStrip_first_port_failure_keeps_slot :
    (addStrip emptyMixer false failFirstOracle).2 = -1
    ∧ ((addStrip emptyMixer false failFirstOracle).1.channelStrips 0).isSome = true
    ∧ (addStrip emptyMixer false failSecondOracle).2 = -1
    ∧ ((addStrip emptyMixer false failSecondOracle).1.channelStrips 0).isNone = true
    ∧ (addStrip emptyMixer false failSecondOracle).1.nPorts = 0 := by
  refine ⟨?_, ?_, ?_, ?_, ?_⟩ <;> decide

theorem soloOf_clearSolos (strips : Nat → Option ChannelStrip) (c : Nat)
    (hc : c < MAX_CHANNELS) : soloOf (clearSolos strips c) = 0 := by
  simp only [clearSolos, hc, if_true]
  cases strips c <;> simp [soloOf]

theorem computeGlobalSolo_clearSolos (chs mbs : Nat → Option ChannelStrip) :
    computeGlobalSolo (clearSolos chs) (clearSolos mbs) = 0 := by
  unfold computeGlobalSolo
  rw [if_neg]
  intro h
  rw [List.any_eq_true] at h
  obtain ⟨c, hc, hcc⟩ := h
  rw [List.mem_range] at hc
  rw [soloOf_clearSolos chs c hc, soloOf_clearSolos mbs c hc] at hcc
  simp at hcc

/-- C10: `setSolo` on strip 0 of the mixbus tier (the main mix), with ANY
solo argument, clears the solo flag of every strip on both tiers (including
the main strip itself, whose solo is never set) and recomputes the global
solo flag to 0. -/
theorem setSolo_main_mixbus_clears_all (st : MixerState) (v : Nat)
    (h : (st.mixbusStrips 0).isSome = true) :
    (∀ c, c < MAX_CHANNELS →
      soloOf ((setSolo st 0 true v).channelStrips c) = 0
      ∧ soloOf ((setSolo st 0 true v).mixbusStrips c) = 0)
    ∧ (setSolo st 0 true v).solo = 0 := by
  obtain ⟨strip, hs⟩ := Option.isSome_iff_exists.mp h
  have hset : setSolo st 0 true v =
      { st with channelStrips := clearSolos st.channelStrips,
                mixbusStrips := clearSolos st.mixbusStrips,
                solo := computeGlobalSolo (clearSolos st.channelStrips)
                  (clearSolos st.mixbusStrips) } := by
    unfold setSolo
    norm_num [MAX_CHANNELS, hs]
  rw [hset]
  refine ⟨fun c hc => ⟨soloOf_clearSolos _ c hc, soloOf_clearSolos _ c hc⟩, ?_⟩
  exact computeGlobalSolo_clearSolos _ _

/-- Mixer state used to instantiate C10: the main mixbus strip exists. -/
def c10State : MixerState := (addStrip emptyMixer true okOracle).1

theorem setSolo_main_mixbus_clears_all_witness :
    ((c10State.mixbusStrips 0).isSome = true)
    ∧ ((∀ c, c < MAX_CHANNELS →
          soloOf ((setSolo c10State 0 true 1).channelStrips c) = 0
          ∧ soloOf ((setSolo c10State 0 true 1).mixbusStrips c) = 0)
        ∧ (setSolo c10State 0 true 1).solo = 0) :=
  ⟨by decide, setSolo_main_mixbus_clears_all c10State 1 (by decide)⟩

end Mixer

namespace Mixer

theorem sanitize_eq (x : ℚ) : sanitize x = x := by
  simp [sanitize, isinf]

theorem preFrame_flags (mixbus : Bool) (chan : Nat) (s t : ChannelStrip)
    (hp : s.phase = t.phase) (hm : s.ms = t.ms) (ho : s.mono = t.mono)
    (inA inB normA normB : Nat → ℚ) (f : Nat) :
    preFrame mixbus chan s inA inB normA normB f
      = preFrame mixbus chan t inA inB normA normB f := by
  unfold preFrame
  rw [hp, hm, ho]

theorem stripFrames_getD (mixbus : Bool) (chan : Nat) (strip : ChannelStrip)
    (inA inB normA normB : Nat → ℚ) (dA dB : ℚ) :
    ∀ count f curA curB i, i < count →
      (stripFrames mixbus chan strip inA inB normA normB dA dB count f curA curB).getD i (0, 0)
        = (sanitize ((preFrame mixbus chan strip inA inB normA normB (f + i)).1
              * (curA + i * dA)),
           sanitize ((preFrame mixbus chan strip inA inB normA normB (f + i)).2
              * (curB + i * dB))) := by
  intro count
  induction count with
  | zero => intro f curA curB i hi; exact absurd hi (Nat.not_lt_zero i)
  | succ count ih =>
      intro f curA curB i hi
      cases i with
      | zero =>
          simp only [stripFrames, List.getD_cons_zero]
          norm_num
      | succ i =>
          simp only [stripFrames, List.getD_cons_succ]
          rw [ih (f + 1) (curA + dA) (curB + dB) i (by omega)]
          have hfi : f + 1 + i = f + (i + 1) := by omega
          rw [hfi]
          simp only [Prod.mk.injEq]
          constructor <;> · congr 1; push_cast; ring

/-- C7: for a strip with balance 0 (current and requested), mute off and no
solo active (global solo 0), in a period of n frames the sample emitted at
frame i is the pre-fader sample multiplied by the gain
`L0 + (L1 - L0) * i / n` (with L0 the latched level and L1 the requested
level), and the strip's latched level at the end of the period is L1. -/
theorem ramp_gain_linear (mixbus : Bool) (chan : Nat) (strip : ChannelStrip)
    (inA inB normA normB : Nat → ℚ) (n i : Nat)
    (hbal : strip.balance = 0) (hreqbal : strip.reqbalance = 0)
    (hmute : strip.mute = 0) (hi : i < n) :
    (processStrip mixbus chan 0 strip inA inB normA normB n).1.getD i (0, 0)
      = (preFaderA mixbus chan strip inA inB normA normB i
           * (strip.level + (strip.reqlevel - strip.level) * (i : ℚ) / (n : ℚ)),
         preFaderB mixbus chan strip inA inB normA normB i
           * (strip.level + (strip.reqlevel - strip.level) * (i : ℚ) / (n : ℚ)))
    ∧ (processStrip mixbus chan 0 strip inA inB normA normB n).2.level
        = strip.reqlevel := by
  have hnm : ¬ (strip.mute ≠ 0 ∨ ((0 : Nat) ≠ 0 ∧ strip.solo = 0
      ∧ (mixbus = false ∨ chan ≠ 0))) := by simp [hmute]
  refine ⟨?_, ?_⟩
  · unfold processStrip
    simp only [hnm, if_false, hbal, hreqbal, lt_self_iff_false]
    rw [stripFrames_getD _ _ _ _ _ _ _ _ _ n 0 _ _ i hi]
    simp only [Nat.zero_add, sanitize_eq, Prod.mk.injEq]
    have hA : preFrame mixbus chan
        { level := strip.reqlevel, reqlevel := strip.reqlevel, balance := 0,
          reqbalance := 0, send := strip.send, mute := strip.mute, solo := strip.solo,
          mono := strip.mono, ms := strip.ms, phase := strip.phase,
          normalise := strip.normalise, inRouted := strip.inRouted,
          outRouted := strip.outRouted }
        inA inB normA normB i = preFrame mixbus chan strip inA inB normA normB i :=
      preFrame_flags mixbus chan _ strip rfl rfl rfl inA inB normA normB i
    rw [hA]
    simp only [preFaderA, preFaderB]
    exact ⟨by ring, by ring⟩
  · unfold processStrip
    simp only [hnm, if_false]

/-- Concrete strip for the C7 witness: level ramping from 0 to 1. -/
def c7Strip : ChannelStrip :=
  { level := 0, reqlevel := 1, balance := 0, reqbalance := 0, send := fun _ => 0,
    mute := 0, solo := 0, mono := 0, ms := 0, phase := 0, normalise := 0,
    inRouted := 1, outRouted := 1 }

/-- Constant DC input used by the C7 witness. -/
def c7In : Nat → ℚ := fun _ => 1

theorem ramp_gain_linear_witness :
    (c7Strip.balance = 0 ∧ c7Strip.reqbalance = 0 ∧ c7Strip.mute = 0 ∧ 2 < 4)
    ∧ ((processStrip false 0 0 c7Strip c7In c7In zeroFn zeroFn 4).1.getD 2 (0, 0)
        = (preFaderA false 0 c7Strip c7In c7In zeroFn zeroFn 2
             * (c7Strip.level + (c7Strip.reqlevel - c7Strip.level)
                 * ((2 : Nat) : ℚ) / ((4 : Nat) : ℚ)),
           preFaderB false 0 c7Strip c7In c7In zeroFn zeroFn 2
             * (c7Strip.level + (c7Strip.reqlevel - c7Strip.level)
                 * ((2 : Nat) : ℚ) / ((4 : Nat) : ℚ)))
        ∧ (processStrip false 0 0 c7Strip c7In c7In zeroFn zeroFn 4).2.level
            = c7Strip.reqlevel) :=
  ⟨⟨rfl, rfl, rfl, by norm_num⟩,
   ramp_gain_linear false 0 c7Strip c7In c7In zeroFn zeroFn 4 2 rfl rfl rfl (by norm_num)⟩

end Mixer

namespace Mixer

/-- One strip's A-leg contribution to send `s` at frame `f` in the
channel-variant callback: the processed post-fader sample times the strip's
send level, for a non-null strip with routed input, else 0. -/
def sendContribA (st : MixerState) (inputs : Nat → (Nat → ℚ) × (Nat → ℚ))
    (frames s f c : Nat) : ℚ :=
  match st.channelStrips c with
  | none => 0
  | some strip =>
    if strip.inRouted ≠ 0 then
      ((processStrip false c st.solo strip (inputs c).1 (inputs c).2
          zeroFn zeroFn frames).1.getD f (0, 0)).1 * strip.send s
    else 0

/-- One strip's B-leg contribution to send `s` at frame `f`. -/
def sendContribB (st : MixerState) (inputs : Nat → (Nat → ℚ) × (Nat → ℚ))
    (frames s f c : Nat) : ℚ :=
  match st.channelStrips c with
  | none => 0
  | some strip =>
    if strip.inRouted ≠ 0 then
      ((processStrip false c st.solo strip (inputs c).1 (inputs c).2
          zeroFn zeroFn frames).1.getD f (0, 0)).2 * strip.send s
    else 0

theorem channelSendsFold_bufferA (st : MixerState)
    (inputs : Nat → (Nat → ℚ) × (Nat → ℚ)) (frames s f : Nat)
    (h1 : 1 ≤ s) (h2 : s < MAX_CHANNELS) (hf : f < frames) :
    ∀ (l : List Nat) (fx : Nat → Option FxSend),
      ((channelSendsFold st inputs frames fx l) s).map (fun snd => snd.bufferA f)
        = ((fx s).map (fun snd => snd.bufferA f)).map
            (fun x => x + (l.map (sendContribA st inputs frames s f)).sum) := by
  intro l
  induction l with
  | nil =>
      intro fx
      cases hfx : fx s <;> simp [channelSendsFold, hfx]
  | cons c rest ih =>
      intro fx
      rw [channelSendsFold]
      cases hcs : st.channelStrips c with
      | none =>
          simp only [hcs]
          rw [ih fx]
          simp [sendContribA, hcs]
      | some strip =>
          by_cases hr : strip.inRouted ≠ 0
          · simp only [hcs]
            rw [if_pos hr, ih]
            have hcontrib : sendContribA st inputs frames s f c
                = ((processStrip false c st.solo strip (inputs c).1 (inputs c).2
                    zeroFn zeroFn frames).1.getD f (0, 0)).1 * strip.send s := by
              simp [sendContribA, hcs, hr]
            cases hfx : fx s with
            | none => simp [accumStripSends, h1, h2, hfx]
            | some snd =>
                simp [accumStripSends, h1, h2, hfx, hf, sanitize_eq, hcontrib] <;> ring
          · simp only [hcs]
            rw [if_neg hr, ih fx]
            simp [sendContribA, hcs, hr]

theorem channelSendsFold_bufferB (st : MixerState)
    (inputs : Nat → (Nat → ℚ) × (Nat → ℚ)) (frames s f : Nat)
    (h1 : 1 ≤ s) (h2 : s < MAX_CHANNELS) (hf : f < frames) :
    ∀ (l : List Nat) (fx : Nat → Option FxSend),
      ((channelSendsFold st inputs frames fx l) s).map (fun snd => snd.bufferB f)
        = ((fx s).map (fun snd => snd.bufferB f)).map
            (fun x => x + (l.map (sendContribB st inputs frames s f)).sum) := by
  intro l
  induction l with
  | nil =>
      intro fx
      cases hfx : fx s <;> simp [channelSendsFold, hfx]
  | cons c rest ih =>
      intro fx
      rw [channelSendsFold]
      cases hcs : st.channelStrips c with
      | none =>
          simp only [hcs]
          rw [ih fx]
          simp [sendContribB, hcs]
      | some strip =>
          by_cases hr : strip.inRouted ≠ 0
          · simp only [hcs]
            rw [if_pos hr, ih]
            have hcontrib : sendContribB st inputs frames s f c
                = ((processStrip false c st.solo strip (inputs c).1 (inputs c).2
                    zeroFn zeroFn frames).1.getD f (0, 0)).2 * strip.send s := by
              simp [sendContribB, hcs, hr]
            cases hfx : fx s with
            | none => simp [accumStripSends, h1, h2, hfx]
            | some snd =>
                simp [accumStripSends, h1, h2, hfx, hf, sanitize_eq, hcontrib] <;> ring
          · simp only [hcs]
            rw [if_neg hr, ih fx]
            simp [sendContribB, hcs, hr]

/-- C4 (amended): in the channel-variant callback, for every configured send
index s in 1..MAX_CHANNELS-1 and every frame f of the period, the send
accumulator cells equal the sum over all strips of the strip's processed
POST-FADER sample multiplied by `strip.send[s]` alone: the fx send's master
`level` field does not enter the product (it is written once with 1.0 and
never read), and there is no per-send pre/post-fader mode selection. -/
theorem send_accumulator_sums_post_fader_times_send (st : MixerState)
    (inputs : Nat → (Nat → ℚ) × (Nat → ℚ)) (frames s f : Nat)
    (h1 : 1 ≤ s) (h2 : s < MAX_CHANNELS) (hf : f < frames) :
    ((channelCallbackSends st inputs frames) s).map (fun snd => snd.bufferA f)
      = (st.fxSends s).map (fun _ =>
          ((List.range MAX_CHANNELS).map (sendContribA st inputs frames s f)).sum)
    ∧ ((channelCallbackSends st inputs frames) s).map (fun snd => snd.bufferB f)
      = (st.fxSends s).map (fun _ =>
          ((List.range MAX_CHANNELS).map (sendContribB st inputs frames s f)).sum) := by
  constructor
  · unfold channelCallbackSends
    rw [channelSendsFold_bufferA st inputs frames s f h1 h2 hf]
    rw [List.map_reverse, List.sum_reverse]
    cases hfx : st.fxSends s with
    | none => simp [zeroSends, hfx, h2]
    | some snd => simp [zeroSends, hfx, h2, hf]
  · unfold channelCallbackSends
    rw [channelSendsFold_bufferB st inputs frames s f h1 h2 hf]
    rw [List.map_reverse, List.sum_reverse]
    cases hfx : st.fxSends s with
    | none => simp [zeroSends, hfx, h2]
    | some snd => simp [zeroSends, hfx, h2, hf]

end Mixer

namespace Mixer

/-- Spec-side value of one strip's send contribution, following the claim's
words: the post- or pre-fader sample (selected by the send mode) multiplied
by the strip's send level and by the send master level (the fx_send `level`
field). -/
def sendValueSpec (post pre sendLevel master : ℚ) (postFader : Bool) : ℚ :=
  (if postFader then post else pre) * sendLevel * master

/-- Strip for the C4 scenario: unit gain (level = reqlevel = 1, balance 0),
routed input, send level 1 into send index 1. -/
def c4Strip : ChannelStrip :=
  { level := 1, reqlevel := 1, balance := 0, reqbalance := 0,
    send := fun s => if s = 1 then 1 else 0, mute := 0, solo := 0, mono := 0,
    ms := 0, phase := 0, normalise := 0, inRouted := 1, outRouted := 1 }

/-- Fx send 1 for the C4 scenario, with master level field 1/2. -/
def c4Send : FxSend := { bufferA := zeroFn, bufferB := zeroFn, level := 1 / 2 }

/-- Mixer state for the C4 scenario: one channel strip, one fx send. -/
def c4State : MixerState :=
  { channelStrips := fun c => if c = 0 then some c4Strip else none,
    mixbusStrips := fun _ => none,
    fxSends := fun s => if s = 1 then some c4Send else none,
    solo := 0, nPorts := 0 }

/-- Unit DC input on both legs of every channel. -/
def c4Inputs : Nat → (Nat → ℚ) × (Nat → ℚ) := fun _ => (fun _ => 1, fun _ => 1)

unseal Rat.mul Rat.add Rat.sub Rat.inv in
/-- C4 counterexample: with one unit-gain strip sending at level 1 into send
1 whose master (fx_send) level field is 1/2, DC input 1 and a 1-frame period,
the code's accumulator cell holds 1 (post-fader sample times the strip send
level), while the value the claim specifies — sample × strip.send[s] ×
send_master[s], whichever fader tap the mode would select (both taps are 1
here) — is 1/2.  The master level field is not applied by the code. -/
theorem send_master_level_not_applied :
    ((channelCallbackSends c4State c4Inputs 1) 1).map (fun snd => snd.bufferA 0) = some 1
    ∧ (c4State.fxSends 1).map (fun snd => snd.level) = some (1 / 2)
    ∧ (∀ postFader : Bool,
        sendValueSpec
          ((processStrip false 0 0 c4Strip (fun _ => 1) (fun _ => 1)
              zeroFn zeroFn 1).1.getD 0 (0, 0)).1
          (preFaderA false 0 c4Strip (fun _ => 1) (fun _ => 1) zeroFn zeroFn 0)
          (c4Strip.send 1) ((1 : ℚ) / 2) postFader = 1 / 2)
    ∧ ((1 : ℚ) = 1 / 2 → False) := by
  refine ⟨?_, ?_, ?_, ?_⟩ <;> decide

theorem send_accumulator_sums_witness :
    (1 ≤ 1 ∧ 1 < MAX_CHANNELS ∧ 0 < 1)
    ∧ (((channelCallbackSends c4State c4Inputs 1) 1).map (fun snd => snd.bufferA 0)
        = (c4State.fxSends 1).map (fun _ =>
            ((List.range MAX_CHANNELS).map (sendContribA c4State c4Inputs 1 1 0)).sum)
      ∧ ((channelCallbackSends c4State c4Inputs 1) 1).map (fun snd => snd.bufferB 0)
        = (c4State.fxSends 1).map (fun _ =>
            ((List.range MAX_CHANNELS).map (sendContribB c4State c4Inputs 1 1 0)).sum)) :=
  ⟨⟨le_refl 1, by norm_num [MAX_CHANNELS], Nat.zero_lt_one⟩,
   send_accumulator_sums_post_fader_times_send c4State c4Inputs 1 1 0
     (le_refl 1) (by norm_num [MAX_CHANNELS]) Nat.zero_lt_one⟩

unseal Rat.mul Rat.add Rat.sub Rat.inv in
/-- C8 counterexample: applying the M/S decode step twice to the stereo pair
(1, 0) gives (2, 0), not 4 times the original, which would be (4, 0). -/
theorem ms_twice_not_four_times :
    msStep (msStep 1 0).1 (msStep 1 0).2 = (2, 0)
    ∧ (msStep (msStep 1 0).1 (msStep 1 0).2 = ((4 : ℚ) * 1, (4 : ℚ) * 0) → False) := by
  refine ⟨?_, ?_⟩ <;> decide

/-- C8 (amended): applying the mixer's M/S decode step twice to a stereo pair
yields exactly 2 times the original value on each leg (before any
gain/normalisation). -/
theorem ms_twice_doubles (a b : ℚ) :
    msStep (msStep a b).1 (msStep a b).2 = (2 * a, 2 * b) := by
  simp only [msStep, Prod.mk.injEq]
  exact ⟨by ring, by ring⟩

end Mixer
